import Mathlib

/-!
Shallow embedding of the bridgelet-core contracts: the ephemeral escrow
account (src/contracts/ephemeral_account) and the sweep controller
(src/contracts/sweep_controller). Per the design notes in the spec, the
canonical account revision is the multi-asset-with-reserve variant
(ephemeral_account/src/lib.rs lines 312-573); the controller proper is
sweep_controller/src/lib.rs, and the multi-asset orchestration variant of
execute_sweep is the one at ephemeral_account/src/lib.rs lines 780-845.
Identities (Soroban Address) are modelled as Nat, i128 amounts as Int
(no i128 overflow is reachable for the quantities involved), u64 nonces
as Nat reduced mod 2^64 at the increment, and byte strings as List Nat.
-/

namespace Bridgelet

/-- AccountStatus from ephemeral_account/src/storage.rs. -/
inductive AccountStatus
  | Active
  | PaymentReceived
  | Swept
  | Expired
deriving DecidableEq, Repr

/-- Error from ephemeral_account/src/errors.rs. -/
inductive Error
  | AlreadyInitialized
  | NotInitialized
  | PaymentAlreadyReceived
  | InvalidAmount
  | InvalidExpiry
  | NotExpired
  | AlreadySwept
  | Unauthorized
  | InvalidSignature
  | NoPaymentReceived
  | AccountExpired
  | InvalidStatus
  | DuplicateAsset
  | TooManyPayments
deriving DecidableEq, Repr

/-- Error from sweep_controller/src/errors.rs. UnauthorizedDestination is
used by execute_sweep (lib.rs lines 80-82) and listed in the spec error
taxonomy, though the errors.rs enum in src omits its declaration; it is
included here from those two sources. -/
inductive CtrlError
  | InvalidAccount
  | TransferFailed
  | AuthorizationFailed
  | InsufficientBalance
  | AccountNotReady
  | AccountExpired
  | AccountAlreadySwept
  | InvalidSignature
  | SignatureVerificationFailed
  | AuthorizedSignerNotSet
  | InvalidNonce
  | UnauthorizedDestination
deriving DecidableEq, Repr

/-- Payment record from ephemeral_account/src/storage.rs. -/
structure Payment where
  asset : Nat
  amount : Int
  timestamp : Nat
deriving DecidableEq, Repr

/-- The per-account key-value storage of the ephemeral account, one field per
DataKey of ephemeral_account/src/storage.rs (with-reserve revision). The
payments map is an association list keyed by asset; each storage getter
default (unwrap_or) is folded into the empty account below. -/
structure AccountState where
  initialized : Bool
  creator : Nat
  expiry_ledger : Nat
  recovery_address : Nat
  payments : List Payment
  status : AccountStatus
  swept_to : Option Nat
  base_reserve : Int
  reserve_reclaimed : Bool
deriving DecidableEq, Repr

/-- Fresh storage: no key present, so every getter yields its default. -/
def emptyAccount : AccountState :=
  { initialized := false
    creator := 0
    expiry_ledger := 0
    recovery_address := 0
    payments := []
    status := .Active
    swept_to := none
    base_reserve := 0
    reserve_reclaimed := false }

/-- MAX_ASSETS from storage.rs (also the literal 10 in record_payment). -/
def MAX_ASSETS : Nat := 10

/-- BASE_RESERVE_PER_ENTRY from storage.rs (0.5 XLM in stroops). -/
def BASE_RESERVE_PER_ENTRY : Int := 5000000

/-- ACCOUNT_BASE_RESERVE from storage.rs (1 XLM in stroops). -/
def ACCOUNT_BASE_RESERVE : Int := 10000000

/-- MIN_BALANCE_FOR_CLOSE from storage.rs (0.1 XLM in stroops). -/
def MIN_BALANCE_FOR_CLOSE : Int := 1000000

/-- calculate_base_reserve from storage.rs lines 200-204. -/
def calculate_base_reserve (num_trustlines : Nat) : Int :=
  ACCOUNT_BASE_RESERVE + BASE_RESERVE_PER_ENTRY * (num_trustlines : Int)

/-- storage::get_payment - lookup of one asset in the payments map. -/
def findPayment (ps : List Payment) (asset : Nat) : Option Payment :=
  ps.find? (fun p => p.asset == asset)

/-- storage::has_payments - the Payments key exists iff some payment was
ever recorded, i.e. iff the map is nonempty (payments are never removed). -/
def has_payments (s : AccountState) : Bool :=
  !s.payments.isEmpty

/-- is_expired from ephemeral_account/src/lib.rs lines 447-456. -/
def is_expired (s : AccountState) (current_ledger : Nat) : Bool :=
  s.initialized && decide (s.expiry_ledger ≤ current_ledger)

/-- get_status from ephemeral_account/src/lib.rs lines 459-465: an account
whose storage has no Initialized key reports Active. -/
def get_status (s : AccountState) : AccountStatus :=
  if s.initialized = false then .Active else s.status

/-- The account constructor (source name: initialize) from
ephemeral_account/src/lib.rs lines 40-78. creator.require_auth is a host
authentication capability and is outside the embedding. -/
def initAccount (s : AccountState) (current_ledger : Nat) (creator expiry_ledger
    recovery_address : Nat) (expected_assets : Nat) : Except Error AccountState :=
  if s.initialized then .error .AlreadyInitialized
  else if expiry_ledger ≤ current_ledger then .error .InvalidExpiry
  else .ok { s with
    initialized := true
    creator := creator
    expiry_ledger := expiry_ledger
    recovery_address := recovery_address
    status := .Active
    base_reserve := calculate_base_reserve expected_assets
    reserve_reclaimed := false }

/-- Modelled from the spec: the fallible storage::add_payment(env, asset,
amount) called at ephemeral_account/src/lib.rs line 330 is not present in
src/contracts/ephemeral_account/src/storage.rs, which holds only the
infallible Payment-taking variant (lines 133-137). Its error behaviour is
modelled from spec section 4.1 (errors DuplicateAsset and TooManyPayments
of record_payment), mirroring the explicit duplicate and cap checks of the
earlier record_payment revision at lib.rs lines 112-121: a duplicate asset
is rejected, a map already at MAX_ASSETS entries is rejected, otherwise a
record with the current timestamp is inserted. -/
def add_payment (ps : List Payment) (asset : Nat) (amount : Int) (now : Nat) :
    Except Error (List Payment) :=
  if (findPayment ps asset).isSome then .error .DuplicateAsset
  else if MAX_ASSETS ≤ ps.length then .error .TooManyPayments
  else .ok (ps ++ [{ asset := asset, amount := amount, timestamp := now }])

/-- record_payment from ephemeral_account/src/lib.rs lines 312-341
(canonical with-reserve revision). -/
def record_payment (s : AccountState) (now : Nat) (amount : Int) (asset : Nat) :
    Except Error AccountState :=
  if s.initialized = false then .error .NotInitialized
  else if amount ≤ 0 then .error .InvalidAmount
  else if s.status = .Swept ∨ s.status = .Expired then .error .InvalidStatus
  else
    match add_payment s.payments asset amount now with
    | .error e => .error e
    | .ok ps =>
      let s1 : AccountState := { s with payments := ps }
      .ok (if ps.length = 1 then { s1 with status := .PaymentReceived } else s1)

/-- verify_sweep_authorization from ephemeral_account/src/lib.rs lines
564-573: the MVP stub accepts every signature. -/
def verify_sweep_authorization (_destination : Nat) (_signature : List Nat) :
    Except Error Unit :=
  .ok ()

/-- SweepExecuted event from ephemeral_account/src/events.rs lines 46-52. -/
structure SweepExecutedEv where
  destination : Nat
  assets : List (Nat × Int)
  reserve_reclaimed : Int
deriving DecidableEq, Repr

/-- sweep from ephemeral_account/src/lib.rs lines 354-395 (canonical
with-reserve revision): state is committed before any transfer, which is
performed by the controller afterwards. -/
def sweep (s : AccountState) (current_ledger : Nat) (destination : Nat)
    (auth_signature : List Nat) : Except Error (AccountState × SweepExecutedEv) :=
  if s.initialized = false then .error .NotInitialized
  else if s.status = .Swept then .error .AlreadySwept
  else if has_payments s = false then .error .NoPaymentReceived
  else if is_expired s current_ledger then .error .AccountExpired
  else
    match verify_sweep_authorization destination auth_signature with
    | .error e => .error e
    | .ok _ =>
      let s1 : AccountState := { s with status := .Swept, swept_to := some destination }
      .ok (s1,
        { destination := destination
          assets := s.payments.map (fun p => (p.asset, p.amount))
          reserve_reclaimed := s.base_reserve })

/-- ReserveReclaimed event from ephemeral_account/src/events.rs lines 54-59. -/
structure ReserveReclaimedEv where
  recipient : Nat
  amount : Int
deriving DecidableEq, Repr

/-- reclaim_reserve from ephemeral_account/src/lib.rs lines 406-444. -/
def reclaim_reserve (s : AccountState) (recipient : Nat) :
    Except Error (AccountState × Int × Option ReserveReclaimedEv) :=
  if s.initialized = false then .error .NotInitialized
  else if s.status ≠ .Swept then .error .InvalidStatus
  else if s.reserve_reclaimed then .error .AlreadySwept
  else
    let reclaimable : Int :=
      if s.base_reserve > MIN_BALANCE_FOR_CLOSE then s.base_reserve - MIN_BALANCE_FOR_CLOSE
      else 0
    .ok ({ s with reserve_reclaimed := true }, reclaimable,
      if reclaimable > 0 then some { recipient := recipient, amount := reclaimable } else none)

/-- AccountExpired event (with-reserve revision) from
ephemeral_account/src/events.rs lines 61-67 and 127-134: it carries the
recovery address, the number of recorded assets and the returned reserve. -/
structure AccountExpiredEv where
  recovery_address : Nat
  total_assets : Nat
  reserve_returned : Int
deriving DecidableEq, Repr

/-- expire from ephemeral_account/src/lib.rs lines 473-517 (canonical
with-reserve revision). -/
def expire (s : AccountState) (current_ledger : Nat) :
    Except Error (AccountState × AccountExpiredEv) :=
  if s.initialized = false then .error .NotInitialized
  else if s.status = .Swept ∨ s.status = .Expired then .error .InvalidStatus
  else if is_expired s current_ledger = false then .error .NotExpired
  else
    let recovery := s.recovery_address
    let s1 : AccountState := { s with status := .Expired, swept_to := some recovery }
    let total_assets := s1.payments.length
    let reserve_to_return : Int :=
      if s.base_reserve > MIN_BALANCE_FOR_CLOSE then s.base_reserve - MIN_BALANCE_FOR_CLOSE
      else 0
    let s2 : AccountState := { s1 with reserve_reclaimed := true }
    .ok (s2,
      { recovery_address := recovery
        total_assets := total_assets
        reserve_returned := reserve_to_return })

/-- The five externally invoked account operations quantified over in the
lifecycle claims, with the inputs each one takes. -/
inductive AcctOp
  | initOp (creator expiry recovery : Nat) (expected : Nat)
  | payOp (amount : Int) (asset : Nat)
  | sweepOp (destination : Nat) (signature : List Nat)
  | expireOp
  | reclaimOp (recipient : Nat)

/-- One externally invoked operation at ledger height h and timestamp now;
a failed operation returns an error before mutating state (Soroban
all-or-nothing semantics), so the state is unchanged. -/
def acctApply (s : AccountState) (h now : Nat) (op : AcctOp) : AccountState :=
  match op with
  | .initOp c e r n =>
    match initAccount s h c e r n with
    | .ok s1 => s1
    | .error _ => s
  | .payOp amt a =>
    match record_payment s now amt a with
    | .ok s1 => s1
    | .error _ => s
  | .sweepOp d sig =>
    match sweep s h d sig with
    | .ok (s1, _) => s1
    | .error _ => s
  | .expireOp =>
    match expire s h with
    | .ok (s1, _) => s1
    | .error _ => s
  | .reclaimOp r =>
    match reclaim_reserve s r with
    | .ok (s1, _, _) => s1
    | .error _ => s

/-- Reachability of an account state at a ledger height: the host ledger
counter is monotonically increasing (spec section 1), so each step runs at
a height no smaller than the preceding one. -/
inductive AcctReachable : AccountState → Nat → Prop
  | start (h : Nat) : AcctReachable emptyAccount h
  | step {s : AccountState} {h : Nat} (hr : AcctReachable s h) (h2 now : Nat)
      (hmono : h ≤ h2) (op : AcctOp) : AcctReachable (acctApply s h2 now op) h2

/-- Invariant carried by every reachable account state at height h. -/
def AcctInv (s : AccountState) (h : Nat) : Prop :=
  (s.initialized = false → s.status = .Active ∧ s.payments = []) ∧
  (s.status = .Active → s.payments = []) ∧
  (s.status = .Expired → s.expiry_ledger ≤ h)

/-- The order allowed by the lifecycle path Active to PaymentReceived to
one of Swept or Expired: both terminal states are maximal and mutually
unreachable from each other. -/
def statusLe : AccountStatus → AccountStatus → Bool
  | .Active, _ => true
  | .PaymentReceived, .Active => false
  | .PaymentReceived, _ => true
  | .Swept, b => b == .Swept
  | .Expired, b => b == .Expired

/-- The host capabilities the controller uses, black boxes per spec
section 1: the fixed-output hash, the signature check, and the canonical
(XDR) encoding of an identity. -/
structure HostCrypto where
  sha256 : List Nat → List Nat
  ed25519_ok : List Nat → List Nat → List Nat → Bool
  toXdr : Nat → List Nat

/-- The key-value storage of the sweep controller, one field per DataKey
of sweep_controller/src/storage.rs; get_sweep_nonce defaults to 0 on a
missing key, folded into the empty controller. -/
structure ControllerState where
  authorized_signer : Option (List Nat)
  sweep_nonce : Nat
  authorized_destination : Option Nat
  creator : Option Nat
deriving DecidableEq, Repr

/-- Fresh controller storage: no key present. -/
def emptyController : ControllerState :=
  { authorized_signer := none
    sweep_nonce := 0
    authorized_destination := none
    creator := none }

/-- increment_sweep_nonce from sweep_controller/src/storage.rs lines 63-68;
the stored counter is a u64, so the successor is reduced mod 2^64. -/
def increment_sweep_nonce (s : ControllerState) : ControllerState :=
  { s with sweep_nonce := (s.sweep_nonce + 1) % 2 ^ 64 }

/-- The controller constructor (source name: initialize) from
sweep_controller/src/lib.rs lines 27-57; the creator recorded is the
contract address itself per the code comment there. -/
def initController (s : ControllerState) (contract_addr : Nat) (signer : List Nat)
    (dest : Option Nat) : Except CtrlError ControllerState :=
  if s.authorized_signer.isSome then .error .AuthorizationFailed
  else .ok { s with
    creator := some contract_addr
    authorized_signer := some signer
    sweep_nonce := 0
    authorized_destination :=
      match dest with
      | some d => some d
      | none => s.authorized_destination }

/-- update_authorized_destination from sweep_controller/src/lib.rs lines
161-183; caller authentication (require_auth) is a host capability
outside the embedding. -/
def update_authorized_destination (s : ControllerState) (new_destination : Nat) :
    Except CtrlError ControllerState :=
  match s.creator with
  | none => .error .AuthorizationFailed
  | some _ =>
    if s.sweep_nonce > 0 then .error .AccountAlreadySwept
    else .ok { s with authorized_destination := some new_destination }

/-- Result of a contract invocation: a value, a structured error value, or
a host trap (panic), which aborts and rolls back the whole transaction. -/
inductive Outcome (α : Type)
  | ok (val : α)
  | err (e : CtrlError)
  | trap
deriving DecidableEq, Repr

/-- bytes_put host semantics behind soroban Bytes::set: update index i,
trap when i is out of bounds (index == length included). -/
def bytesPut (b : List Nat) (i : Nat) (v : Nat) : Option (List Nat) :=
  if i < b.length then some (b.set i v) else none

/-- One copy loop of construct_sweep_message (authorization.rs lines 52-63):
writes src byte by byte at the running index via Bytes::set. -/
def copyInto (message : List Nat) (idx : Nat) : List Nat → Option (List Nat × Nat)
  | [] => some (message, idx)
  | b :: rest =>
    match bytesPut message idx b with
    | none => none
    | some m => copyInto m (idx + 1) rest

/-- The nonce as 8 bytes big-endian (authorization.rs lines 34-43). -/
def be8 (n : Nat) : List Nat :=
  [n / 2 ^ 56 % 256, n / 2 ^ 48 % 256, n / 2 ^ 40 % 256, n / 2 ^ 32 % 256,
   n / 2 ^ 24 % 256, n / 2 ^ 16 % 256, n / 2 ^ 8 % 256, n % 256]

/-- construct_sweep_message from sweep_controller/src/authorization.rs lines
16-67, byte for byte: the message starts as the empty Bytes and the three
sections are written into it with Bytes::set at a running index; none
models the host trap of an out-of-bounds write. -/
def construct_sweep_message (hc : HostCrypto) (nonce : Nat)
    (destination contract_id : Nat) : Option (List Nat) :=
  let dest_bytes := hc.toXdr destination
  let contract_bytes := hc.toXdr contract_id
  let nonce_bytes := be8 nonce
  match copyInto [] 0 dest_bytes with
  | none => none
  | some (m1, i1) =>
    match copyInto m1 i1 nonce_bytes with
    | none => none
    | some (m2, i2) =>
      match copyInto m2 i2 contract_bytes with
      | none => none
      | some (m3, _) => some (hc.sha256 m3)

/-- The message the doc comment of construct_sweep_message and spec section
4.2 describe: the hash of the destination encoding, then the nonce as 8
bytes big-endian, then the controller identity encoding, concatenated. -/
def spec_sweep_message (hc : HostCrypto) (nonce : Nat)
    (destination contract_id : Nat) : List Nat :=
  hc.sha256 (hc.toXdr destination ++ be8 nonce ++ hc.toXdr contract_id)

/-- verify_sweep_auth from sweep_controller/src/authorization.rs lines
82-112: a missing signer is the structured error AuthorizedSignerNotSet; a
trap of message construction propagates; ed25519_verify panics (traps) on
an invalid signature instead of returning an error, per the code comment
at lines 106-109. -/
def verify_sweep_auth (hc : HostCrypto) (s : ControllerState) (contract_id : Nat)
    (_account destination : Nat) (signature : List Nat) : Outcome Unit :=
  match s.authorized_signer with
  | none => .err .AuthorizedSignerNotSet
  | some pk =>
    match construct_sweep_message hc s.sweep_nonce destination contract_id with
    | none => .trap
    | some message =>
      if hc.ed25519_ok pk message signature then .ok () else .trap

/-- What the controller learns from the account through get_info
(cross-contract, sweep_controller/src/lib.rs lines 105-120). -/
structure AccountView where
  payment_received : Bool
  payment_amounts : List Int
deriving DecidableEq, Repr

/-- The behaviour of the account contract over the two cross-contract
calls execute_sweep makes, supplied by the host: both client calls are
non-try calls, so a failure of either one traps the controller. -/
structure AccountOracle where
  sweepOk : Bool
  infoRes : Option AccountView
deriving DecidableEq, Repr

/-- A cross-component call made by the controller, recording the
controller nonce already stored when the call is issued. -/
inductive ExtCall
  | acctSweep (dest : Nat) (nonceAtCall : Nat)
  | acctGetInfo (nonceAtCall : Nat)
deriving DecidableEq, Repr

/-- The nonce stored at the moment a cross-component call is issued. -/
def ExtCall.nonceAt : ExtCall → Nat
  | .acctSweep _ n => n
  | .acctGetInfo n => n

/-- The tail of execute_sweep after a successful verification and the
nonce increment (sweep_controller/src/lib.rs lines 97-135). -/
def execute_sweep_after (oracle : AccountOracle) (s1 : ControllerState)
    (destination : Nat) : Outcome Unit × ControllerState × List ExtCall :=
  let c1 : List ExtCall := [.acctSweep destination s1.sweep_nonce]
  if oracle.sweepOk = false then (.trap, s1, c1)
  else
    let c2 : List ExtCall := c1 ++ [.acctGetInfo s1.sweep_nonce]
    match oracle.infoRes with
    | none => (.trap, s1, c2)
    | some info =>
      if info.payment_received = false then (.err .AccountNotReady, s1, c2)
      else if info.payment_amounts.length = 0 then (.err .AccountNotReady, s1, c2)
      else
        match info.payment_amounts.head? with
        | none => (.err .AccountNotReady, s1, c2)
        | some _amount => (.ok (), s1, c2)

/-- execute_sweep from sweep_controller/src/lib.rs lines 71-136 with the
verification step as a parameter (the host crypto black box of spec
section 1): locked-mode destination check, verification, nonce increment,
then the cross-contract calls; any verification failure returns before
the nonce is touched and before any cross-component call. -/
def execute_sweep_gen (verifyRes : Outcome Unit) (oracle : AccountOracle)
    (s : ControllerState) (destination : Nat) :
    Outcome Unit × ControllerState × List ExtCall :=
  if s.authorized_destination.isSome then
    match s.authorized_destination with
    | none => (.err .UnauthorizedDestination, s, [])
    | some ad =>
      if destination ≠ ad then (.err .UnauthorizedDestination, s, [])
      else
        match verifyRes with
        | .err e => (.err e, s, [])
        | .trap => (.trap, s, [])
        | .ok _ => execute_sweep_after oracle (increment_sweep_nonce s) destination
  else
    match verifyRes with
    | .err e => (.err e, s, [])
    | .trap => (.trap, s, [])
    | .ok _ => execute_sweep_after oracle (increment_sweep_nonce s) destination

/-- execute_sweep with the verification instantiated to the concrete
verify_sweep_auth of authorization.rs. -/
def execute_sweep (hc : HostCrypto) (oracle : AccountOracle) (s : ControllerState)
    (contract_addr ephemeral_account destination : Nat) (auth_signature : List Nat) :
    Outcome Unit × ControllerState × List ExtCall :=
  execute_sweep_gen
    (verify_sweep_auth hc s contract_addr ephemeral_account destination auth_signature)
    oracle s destination

/-- The controller state committed on chain after a call: on a structured
error or a trap the whole transaction is rolled back (all-or-nothing per
spec section 5), so only an ok outcome commits the new state. -/
def committedCtrl (s0 : ControllerState)
    (r : Outcome Unit × ControllerState × List ExtCall) : ControllerState :=
  match r.1 with
  | .ok _ => r.2.1
  | .err _ => s0
  | .trap => s0

/-- The locked-mode destination gate of execute_sweep: vacuous in flexible
mode, equality with the pin in locked mode. -/
def pinOk (s : ControllerState) (destination : Nat) : Prop :=
  match s.authorized_destination with
  | none => True
  | some ad => destination = ad

/-- A controller operation; execute_sweep carries the verification outcome
and the account behaviour as host parameters. -/
inductive CtrlOp
  | initCtrl (addr : Nat) (signer : List Nat) (dest : Option Nat)
  | execOp (verifyRes : Outcome Unit) (oracle : AccountOracle) (dest : Nat)
  | updateDest (new_destination : Nat)

/-- Committed controller state after one operation (errors and traps leave
the stored state unchanged). -/
def ctrlApply (s : ControllerState) (op : CtrlOp) : ControllerState :=
  match op with
  | .initCtrl a sig d =>
    match initController s a sig d with
    | .ok s1 => s1
    | .error _ => s
  | .execOp v o dest => committedCtrl s (execute_sweep_gen v o s dest)
  | .updateDest d =>
    match update_authorized_destination s d with
    | .ok s1 => s1
    | .error _ => s

/-- A verification outcome is only attainable against some stored signer:
verify_sweep_auth returns AuthorizedSignerNotSet whenever the signer key
is absent, so a successful verification implies the signer is set. -/
def CtrlOpSound (s : ControllerState) : CtrlOp → Prop
  | .execOp v _ _ => v = .ok () → s.authorized_signer.isSome
  | _ => True

/-- Reachability of a controller state through sound operations. -/
inductive CtrlReachable : ControllerState → Prop
  | start : CtrlReachable emptyController
  | step {s : ControllerState} (hr : CtrlReachable s) (op : CtrlOp)
      (hs : CtrlOpSound s op) : CtrlReachable (ctrlApply s op)

/-- The action trace of the multi-asset execute_sweep revision, each entry
paired with the account state at the moment the call is issued. -/
inductive MAction
  | acctSweepCall
  | acctGetPayments
  | transferCall (asset : Nat) (amount : Int)
  | acctReclaim (recipient : Nat)
deriving DecidableEq, Repr

/-- The per-asset transfer loop of the multi-asset execute_sweep
(ephemeral_account/src/lib.rs lines 815-826): each TransferContext
invocation is appended to the trace with the account state it observes; a
failed token transfer panics (non-try token client call), aborting the
loop with a trap. -/
def runTransfers (transferOk : Nat → Int → Bool) (acct : AccountState)
    (tr : List (MAction × AccountState)) :
    List (Nat × Int) → Bool × List (MAction × AccountState)
  | [] => (true, tr)
  | (a, amt) :: rest =>
    let tr1 := tr ++ [(MAction.transferCall a amt, acct)]
    if transferOk a amt then runTransfers transferOk acct tr1 rest
    else (false, tr1)

/-- The multi-asset SweepController::execute_sweep revision from
ephemeral_account/src/lib.rs lines 780-845, composed with the real account
operations: verify, Account.sweep (try call mapped to InvalidAccount),
get_payments, the transfer loop, then Account.reclaim_reserve (try call
mapped to TransferFailed). This revision does not touch the nonce. -/
def execute_sweep_multi (verifyRes : Outcome Unit) (transferOk : Nat → Int → Bool)
    (acct : AccountState) (current_ledger : Nat) (destination : Nat)
    (auth_signature : List Nat) (reclaim_reserve_to : Option Nat) :
    Outcome Unit × AccountState × List (MAction × AccountState) :=
  match verifyRes with
  | .err e => (.err e, acct, [])
  | .trap => (.trap, acct, [])
  | .ok _ =>
    match sweep acct current_ledger destination auth_signature with
    | .error _ => (.err .InvalidAccount, acct, [(MAction.acctSweepCall, acct)])
    | .ok (acct1, _ev) =>
      if (acct1.payments.map (fun p => (p.asset, p.amount))).length = 0 then
        (.err .AccountNotReady, acct1,
          [(MAction.acctSweepCall, acct), (MAction.acctGetPayments, acct1)])
      else
        match runTransfers transferOk acct1
            [(MAction.acctSweepCall, acct), (MAction.acctGetPayments, acct1)]
            (acct1.payments.map (fun p => (p.asset, p.amount))) with
        | (false, trN) => (.trap, acct1, trN)
        | (true, trN) =>
          match reclaim_reserve acct1 (reclaim_reserve_to.getD destination) with
          | .error _ => (.err .TransferFailed, acct1,
              trN ++ [(MAction.acctReclaim (reclaim_reserve_to.getD destination), acct1)])
          | .ok (acct2, _amt, _ev) => (.ok (), acct2,
              trN ++ [(MAction.acctReclaim (reclaim_reserve_to.getD destination), acct1)])

/-- A sequence of record_payment calls at one timestamp, returning the
final account state and the number of successful calls; a failed call
leaves the state unchanged and the sequence continues. -/
def runPaymentsCount (s : AccountState) (now : Nat) :
    List (Int × Nat) → AccountState × Nat
  | [] => (s, 0)
  | (amt, a) :: rest =>
    match record_payment s now amt a with
    | .ok s1 =>
      let r := runPaymentsCount s1 now rest
      (r.1, r.2 + 1)
    | .error _ =>
      let r := runPaymentsCount s now rest
      (r.1, r.2)

/-- A concrete host-crypto instance used to evaluate the controller at
concrete inputs: a one-byte identity encoding, the identity hash, and a
signature check that rejects everything. -/
def hcEx : HostCrypto :=
  { sha256 := fun m => m
    ed25519_ok := fun _ _ _ => false
    toXdr := fun a => [a % 256] }

/-- A concrete initialized controller: signer set, nonce 0, no pin. -/
def ctrlEx : ControllerState :=
  { authorized_signer := some [1]
    sweep_nonce := 0
    authorized_destination := none
    creator := some 2 }

/-- A concrete account behaviour for the controller cross-contract calls:
both calls succeed and one payment of 100 is reported. -/
def oracleEx : AccountOracle :=
  { sweepOk := true
    infoRes := some { payment_received := true, payment_amounts := [100] } }

/-- Concrete account run: freshly created at height 5 with expiry 100,
recovery 3, two expected assets. -/
def exA0 : AccountState := acctApply emptyAccount 5 5 (.initOp 1 100 3 2)

/-- exA0 after one payment of 100 in asset 7. -/
def exA1 : AccountState := acctApply exA0 5 5 (.payOp 100 7)

/-- exA1 swept to destination 9 at height 6. -/
def exSwept : AccountState := acctApply exA1 6 6 (.sweepOp 9 [0])

/-- Concrete account run: created at height 5 with expiry 10, recovery 3,
two expected assets. -/
def exB0 : AccountState := acctApply emptyAccount 5 5 (.initOp 1 10 3 2)

/-- exB0 after a payment of 100 in asset 1. -/
def exB1 : AccountState := acctApply exB0 5 5 (.payOp 100 1)

/-- exB1 after a payment of 200 in asset 2. -/
def exB2 : AccountState := acctApply exB1 5 5 (.payOp 200 2)

/-!
Theorems. The shape lemmas below characterise the successful runs of each
account operation; the lifecycle claims follow from them through the
reachability invariant.
-/

theorem statusLe_refl (a : AccountStatus) : statusLe a a = true := by
  cases a <;> rfl

theorem initAccount_ok {s : AccountState} {h c e r n : Nat} {s1 : AccountState}
    (hk : initAccount s h c e r n = .ok s1) :
    s.initialized = false ∧ h < e ∧
    s1 = { s with initialized := true, creator := c, expiry_ledger := e,
                  recovery_address := r, status := .Active,
                  base_reserve := calculate_base_reserve n,
                  reserve_reclaimed := false } := by
  unfold initAccount at hk
  split at hk
  · simp at hk
  · rename_i hninit
    split at hk
    · simp at hk
    · rename_i hexp
      refine ⟨by simpa using hninit, by omega, ?_⟩
      injection hk with hk
      exact hk.symm

theorem add_payment_ok {ps : List Payment} {a : Nat} {amt : Int} {now : Nat}
    {ps1 : List Payment} (hk : add_payment ps a amt now = .ok ps1) :
    findPayment ps a = none ∧ ps.length < MAX_ASSETS ∧
    ps1 = ps ++ [{ asset := a, amount := amt, timestamp := now }] := by
  unfold add_payment at hk
  split at hk
  · simp at hk
  · rename_i hdup
    split at hk
    · simp at hk
    · rename_i hlen
      refine ⟨Option.not_isSome_iff_eq_none.mp (by simpa using hdup), by omega, ?_⟩
      injection hk with hk
      exact hk.symm

theorem record_payment_ok {s : AccountState} {now : Nat} {amt : Int} {a : Nat}
    {s1 : AccountState} (hk : record_payment s now amt a = .ok s1) :
    s.initialized = true ∧ 0 < amt ∧ ¬(s.status = .Swept ∨ s.status = .Expired) ∧
    findPayment s.payments a = none ∧ s.payments.length < MAX_ASSETS ∧
    s1.payments = s.payments ++ [{ asset := a, amount := amt, timestamp := now }] ∧
    s1.status = (if s.payments.length = 0 then .PaymentReceived else s.status) ∧
    s1.initialized = s.initialized ∧ s1.expiry_ledger = s.expiry_ledger ∧
    s1.base_reserve = s.base_reserve ∧ s1.reserve_reclaimed = s.reserve_reclaimed ∧
    s1.swept_to = s.swept_to ∧ s1.creator = s.creator ∧
    s1.recovery_address = s.recovery_address := by
  unfold record_payment at hk
  split at hk
  · simp at hk
  · rename_i hinit
    split at hk
    · simp at hk
    · rename_i hamt
      split at hk
      · simp at hk
      · rename_i hstat
        cases hadd : add_payment s.payments a amt now with
        | error e => rw [hadd] at hk; simp at hk
        | ok ps =>
          rw [hadd] at hk
          obtain ⟨hdup, hlen, rfl⟩ := add_payment_ok hadd
          simp only [List.length_append, List.length_singleton] at hk
          injection hk with hk
          subst hk
          by_cases hz : s.payments.length = 0
          · simp only [hz, if_pos rfl]
            exact ⟨by simpa using hinit, by omega, hstat, hdup, by omega, by simp,
              by simp, by simp, by simp, by simp, by simp, by simp, by simp, by simp⟩
          · have hne : ¬(s.payments.length + 1 = 1) := by omega
            simp only [if_neg hne, if_neg hz]
            exact ⟨by simpa using hinit, by omega, hstat, hdup, by omega, by simp,
              by simp, by simp, by simp, by simp, by simp, by simp, by simp, by simp⟩

theorem sweep_ok {s : AccountState} {h d : Nat} {sig : List Nat}
    {s1 : AccountState} {ev : SweepExecutedEv}
    (hk : sweep s h d sig = .ok (s1, ev)) :
    s.initialized = true ∧ s.status ≠ .Swept ∧ has_payments s = true ∧
    is_expired s h = false ∧
    s1 = { s with status := .Swept, swept_to := some d } ∧
    ev = { destination := d, assets := s.payments.map (fun p => (p.asset, p.amount)),
           reserve_reclaimed := s.base_reserve } := by
  unfold sweep at hk
  split at hk
  · simp at hk
  · rename_i hinit
    split at hk
    · simp at hk
    · rename_i hsw
      split at hk
      · simp at hk
      · rename_i hpay
        split at hk
        · simp at hk
        · rename_i hexp
          simp only [verify_sweep_authorization] at hk
          injection hk with hk
          refine ⟨by simpa using hinit, hsw, by simpa using hpay,
            by simpa using hexp, ?_, ?_⟩
          · exact congrArg Prod.fst hk.symm
          · exact congrArg Prod.snd hk.symm

theorem expire_ok {s : AccountState} {h : Nat} {s1 : AccountState}
    {ev : AccountExpiredEv} (hk : expire s h = .ok (s1, ev)) :
    s.initialized = true ∧ ¬(s.status = .Swept ∨ s.status = .Expired) ∧
    s.expiry_ledger ≤ h ∧
    s1 = { s with status := .Expired, swept_to := some s.recovery_address,
                  reserve_reclaimed := true } ∧
    ev = { recovery_address := s.recovery_address,
           total_assets := s.payments.length,
           reserve_returned := if s.base_reserve > MIN_BALANCE_FOR_CLOSE
                               then s.base_reserve - MIN_BALANCE_FOR_CLOSE else 0 } := by
  unfold expire at hk
  split at hk
  · simp at hk
  · rename_i hinit
    split at hk
    · simp at hk
    · rename_i hstat
      split at hk
      · simp at hk
      · rename_i hexp
        have hin : s.initialized = true := by simpa using hinit
        have hexp1 : is_expired s h = true := by simpa using hexp
        have hle : s.expiry_ledger ≤ h := by
          simpa [is_expired, hin] using hexp1
        injection hk with hk
        exact ⟨hin, hstat, hle, congrArg Prod.fst hk.symm, congrArg Prod.snd hk.symm⟩

theorem reclaim_reserve_ok {s : AccountState} {r : Nat} {s1 : AccountState}
    {amt : Int} {ev : Option ReserveReclaimedEv}
    (hk : reclaim_reserve s r = .ok (s1, amt, ev)) :
    s.initialized = true ∧ s.status = .Swept ∧ s.reserve_reclaimed = false ∧
    s1 = { s with reserve_reclaimed := true } ∧
    amt = (if s.base_reserve > MIN_BALANCE_FOR_CLOSE
           then s.base_reserve - MIN_BALANCE_FOR_CLOSE else 0) := by
  unfold reclaim_reserve at hk
  split at hk
  · simp at hk
  · rename_i hinit
    split at hk
    · simp at hk
    · rename_i hstat
      split at hk
      · simp at hk
      · rename_i hrec
        injection hk with hk
        refine ⟨by simpa using hinit, by simpa using hstat, by simpa using hrec,
          congrArg Prod.fst hk.symm, ?_⟩
        have := congrArg Prod.snd hk.symm
        exact congrArg Prod.fst this

theorem acctInv_mono {s : AccountState} {h h2 : Nat} (hi : AcctInv s h)
    (hle : h ≤ h2) : AcctInv s h2 := by
  obtain ⟨h1, hA, hE⟩ := hi
  exact ⟨h1, hA, fun hx => le_trans (hE hx) hle⟩

theorem init_true_of_not_active {s : AccountState} {h : Nat} (hi : AcctInv s h)
    (hs : s.status ≠ .Active) : s.initialized = true := by
  by_contra hc
  have hfalse : s.initialized = false := by simpa using hc
  exact hs (hi.1 hfalse).1

theorem acctInv_step {s : AccountState} {h2 : Nat} (hi : AcctInv s h2)
    (now : Nat) (op : AcctOp) : AcctInv (acctApply s h2 now op) h2 := by
  obtain ⟨h1, hA, hE⟩ := hi
  cases op with
  | initOp c e r n =>
    cases hk : initAccount s h2 c e r n with
    | error e0 => simpa [acctApply, hk] using ⟨h1, hA, hE⟩
    | ok s1 =>
      obtain ⟨hninit, _, rfl⟩ := initAccount_ok hk
      have hpe : s.payments = [] := (h1 hninit).2
      simp [acctApply, hk, AcctInv, hpe]
  | payOp amt a =>
    cases hk : record_payment s now amt a with
    | error e0 => simpa [acctApply, hk] using ⟨h1, hA, hE⟩
    | ok s1 =>
      obtain ⟨hin, _, hnst, _, _, hpay1, hst1, hin1, hexp1, _, _, _, _, _⟩ :=
        record_payment_ok hk
      simp only [acctApply, hk]
      refine ⟨fun hf => ?_, fun hact => ?_, fun hexpd => ?_⟩
      · rw [hin1, hin] at hf; cases hf
      · exfalso
        rw [hst1] at hact
        by_cases hz : s.payments.length = 0
        · simp [hz] at hact
        · simp [hz] at hact
          have := hA hact
          rw [this] at hz
          simp at hz
      · exfalso
        rw [hst1] at hexpd
        by_cases hz : s.payments.length = 0
        · simp [hz] at hexpd
        · simp [hz] at hexpd
          exact hnst (Or.inr hexpd)
  | sweepOp d sig =>
    cases hk : sweep s h2 d sig with
    | error e0 => simpa [acctApply, hk] using ⟨h1, hA, hE⟩
    | ok p =>
      obtain ⟨s1, ev⟩ := p
      obtain ⟨hin, _, _, _, rfl, _⟩ := sweep_ok hk
      simp [acctApply, hk, AcctInv, hin]
  | expireOp =>
    cases hk : expire s h2 with
    | error e0 => simpa [acctApply, hk] using ⟨h1, hA, hE⟩
    | ok p =>
      obtain ⟨s1, ev⟩ := p
      obtain ⟨hin, _, hle, rfl, _⟩ := expire_ok hk
      simp [acctApply, hk, AcctInv, hin, hle]
  | reclaimOp r =>
    cases hk : reclaim_reserve s r with
    | error e0 => simpa [acctApply, hk] using ⟨h1, hA, hE⟩
    | ok t =>
      obtain ⟨s1, amt, ev⟩ := t
      obtain ⟨hin, hsw, _, rfl, _⟩ := reclaim_reserve_ok hk
      simp [acctApply, hk, AcctInv, hin, hsw]

theorem acctReachable_inv {s : AccountState} {h : Nat} (hr : AcctReachable s h) :
    AcctInv s h := by
  induction hr with
  | start h0 => exact ⟨fun _ => ⟨rfl, rfl⟩, fun _ => rfl, by simp [emptyAccount]⟩
  | step hr0 h2 now hmono op ih => exact acctInv_step (acctInv_mono ih hmono) now op

theorem acctApply_status_terminal {s : AccountState} {h2 : Nat} (hi : AcctInv s h2)
    (now : Nat) (op : AcctOp) (hterm : s.status = .Swept ∨ s.status = .Expired) :
    (acctApply s h2 now op).status = s.status := by
  have hin : s.initialized = true := by
    refine init_true_of_not_active hi ?_
    rcases hterm with h | h <;> simp [h]
  cases op with
  | initOp c e r n =>
    have hk : initAccount s h2 c e r n = .error .AlreadyInitialized := by
      unfold initAccount
      simp [hin]
    simp [acctApply, hk]
  | payOp amt a =>
    cases hk : record_payment s now amt a with
    | error e0 => simp [acctApply, hk]
    | ok s1 =>
      exact absurd hterm (record_payment_ok hk).2.2.1
  | sweepOp d sig =>
    cases hk : sweep s h2 d sig with
    | error e0 => simp [acctApply, hk]
    | ok p =>
      obtain ⟨s1, ev⟩ := p
      obtain ⟨_, hnsw, _, hnexp, _, _⟩ := sweep_ok hk
      rcases hterm with hx | hx
      · exact absurd hx hnsw
      · exfalso
        have hle : s.expiry_ledger ≤ h2 := hi.2.2 hx
        rw [is_expired, hin] at hnexp
        simp [hle] at hnexp
  | expireOp =>
    cases hk : expire s h2 with
    | error e0 => simp [acctApply, hk]
    | ok p =>
      obtain ⟨s1, ev⟩ := p
      exact absurd hterm (expire_ok hk).2.1
  | reclaimOp r =>
    cases hk : reclaim_reserve s r with
    | error e0 => simp [acctApply, hk]
    | ok t =>
      obtain ⟨s1, amt, ev⟩ := t
      obtain ⟨_, _, _, rfl, _⟩ := reclaim_reserve_ok hk
      simp [acctApply, hk]

theorem sweep_err_of_expired {s : AccountState} {h2 : Nat} (hin : s.initialized = true)
    (hst : s.status = .Expired) (hle : s.expiry_ledger ≤ h2) (d : Nat)
    (sig : List Nat) : ∃ e, sweep s h2 d sig = .error e := by
  unfold sweep
  by_cases hp : has_payments s = false
  · exact ⟨.NoPaymentReceived, by simp [hin, hst, hp]⟩
  · refine ⟨.AccountExpired, ?_⟩
    have hexp : is_expired s h2 = true := by simp [is_expired, hin, hle]
    simp [hin, hst, hp, hexp]

theorem expire_err_of_swept {s : AccountState} {h2 : Nat} (hin : s.initialized = true)
    (hst : s.status = .Swept) : expire s h2 = .error .InvalidStatus := by
  unfold expire
  simp [hin, hst]

/-- C1: for every reachable account state, one further operation at a ledger
height at least the current one moves the status only along the directed
path Active to PaymentReceived to one of Swept or Expired; once the status
is Swept or Expired no operation changes it, a sweep called on an expired
account fails, and expire called on a swept account fails. -/
theorem C1_status_monotonic_terminal {s : AccountState} {h : Nat}
    (hr : AcctReachable s h) {h2 : Nat} (hle : h ≤ h2) (now : Nat) (op : AcctOp) :
    statusLe s.status (acctApply s h2 now op).status = true ∧
    ((s.status = .Swept ∨ s.status = .Expired) →
      (acctApply s h2 now op).status = s.status) ∧
    (s.status = .Expired → ∀ d sig, ∃ e, sweep s h2 d sig = .error e) ∧
    (s.status = .Swept → expire s h2 = .error .InvalidStatus) := by
  have hi : AcctInv s h2 := acctInv_mono (acctReachable_inv hr) hle
  have hin_of : s.status ≠ .Active → s.initialized = true :=
    fun hs => init_true_of_not_active hi hs
  refine ⟨?_, fun ht => acctApply_status_terminal hi now op ht, fun hx d sig => ?_,
    fun hx => ?_⟩
  · cases hst : s.status with
    | Active => simp [statusLe]
    | Swept =>
      have hq := acctApply_status_terminal hi now op (by rw [hst]; exact Or.inl rfl)
      rw [hq, hst]
      decide
    | Expired =>
      have hq := acctApply_status_terminal hi now op (by rw [hst]; exact Or.inr rfl)
      rw [hq, hst]
      decide
    | PaymentReceived =>
      have hin : s.initialized = true := hin_of (by rw [hst]; simp)
      cases op with
      | initOp c e r n =>
        have hk : initAccount s h2 c e r n = .error .AlreadyInitialized := by
          unfold initAccount
          simp [hin]
        simp [acctApply, hk, hst, statusLe]
      | payOp amt a =>
        cases hk : record_payment s now amt a with
        | error e0 => simp [acctApply, hk, hst, statusLe]
        | ok s1 =>
          obtain ⟨_, _, _, _, _, _, hst1, _⟩ := record_payment_ok hk
          rw [hst] at hst1
          simp only [acctApply, hk]
          by_cases hz : s.payments.length = 0 <;> simp [hz] at hst1 <;>
            simp [hst, hst1, statusLe]
      | sweepOp d sig =>
        cases hk : sweep s h2 d sig with
        | error e0 => simp [acctApply, hk, hst, statusLe]
        | ok p =>
          obtain ⟨s1, ev⟩ := p
          obtain ⟨_, _, _, _, rfl, _⟩ := sweep_ok hk
          simp [acctApply, hk, hst, statusLe]
      | expireOp =>
        cases hk : expire s h2 with
        | error e0 => simp [acctApply, hk, hst, statusLe]
        | ok p =>
          obtain ⟨s1, ev⟩ := p
          obtain ⟨_, _, _, rfl, _⟩ := expire_ok hk
          simp [acctApply, hk, hst, statusLe]
      | reclaimOp r =>
        cases hk : reclaim_reserve s r with
        | error e0 => simp [acctApply, hk, hst, statusLe]
        | ok t =>
          obtain ⟨s1, amt, ev⟩ := t
          obtain ⟨_, _, _, rfl, _⟩ := reclaim_reserve_ok hk
          simp [acctApply, hk, hst, statusLe]
  · exact sweep_err_of_expired (hin_of (by rw [hx]; simp)) hx (hi.2.2 hx) d sig
  · exact expire_err_of_swept (hin_of (by rw [hx]; simp)) hx

theorem exSwept_reachable : AcctReachable exSwept 6 :=
  AcctReachable.step
    (AcctReachable.step
      (AcctReachable.step (AcctReachable.start 5) 5 5 (le_refl 5) (.initOp 1 100 3 2))
      5 5 (le_refl 5) (.payOp 100 7))
    6 6 (by omega) (.sweepOp 9 [0])

/-- Witness for C1 at a concrete reachable swept account: its status is
Swept and expire on it fails with InvalidStatus. -/
theorem C1_status_monotonic_terminal_witness :
    exSwept.status = .Swept ∧ expire exSwept 7 = .error .InvalidStatus := by
  have hq := C1_status_monotonic_terminal exSwept_reachable
    (show (6 : Nat) ≤ 7 by omega) 7 .expireOp
  exact ⟨by decide, hq.2.2.2 (by decide)⟩

theorem bytesPut_nil (i v : Nat) : bytesPut [] i v = none := by
  simp [bytesPut]

theorem copyInto_nil_cons (i b : Nat) (rest : List Nat) :
    copyInto [] i (b :: rest) = none := by
  simp [copyInto, bytesPut_nil]

/-- C4: the claim fails on the code. construct_sweep_message writes every
byte through Bytes::set into a Bytes that starts empty, and an
out-of-bounds Bytes::set is a host trap, so the very first write (of the
destination encoding, or of the 8 nonce bytes when that encoding is
empty) traps: the function never returns the SHA-256 of the concatenated
message, for any host hash, any nonce and any identities. -/
theorem C4_construct_sweep_message_traps (hc : HostCrypto) (nonce : Nat)
    (destination contract_id : Nat) :
    construct_sweep_message hc nonce destination contract_id = none := by
  unfold construct_sweep_message
  cases hd : hc.toXdr destination with
  | nil =>
    simp only [hd]
    simp [copyInto, bytesPut, be8]
  | cons b rest =>
    simp only [hd]
    simp [copyInto, bytesPut]

/-- C9: the code panics instead of returning the structured error: with
the authorized signer set, a call of execute_sweep whose signature cannot
verify traps inside the verification step (the message construction traps
on its out-of-bounds Bytes::set, and ed25519_verify itself panics on an
invalid signature per its own comment), so the outcome is a host trap and
not SignatureVerificationFailed or AuthorizationFailed; no cross-component
call is made and the committed controller state is unchanged. -/
theorem C9_execute_sweep_traps_on_failed_verification :
    execute_sweep hcEx oracleEx ctrlEx 2 4 5 [0] = (.trap, ctrlEx, []) ∧
    committedCtrl ctrlEx (execute_sweep hcEx oracleEx ctrlEx 2 4 5 [0]) = ctrlEx := by
  constructor
  · rfl
  · rfl

theorem execute_sweep_after_spec (o : AccountOracle) (s1 : ControllerState)
    (dest : Nat) :
    (execute_sweep_after o s1 dest).2.1 = s1 ∧
    ∀ c ∈ (execute_sweep_after o s1 dest).2.2, c.nonceAt = s1.sweep_nonce := by
  cases hsw : o.sweepOk with
  | false =>
    simp [execute_sweep_after, hsw, ExtCall.nonceAt]
  | true =>
    cases hinf : o.infoRes with
    | none => simp [execute_sweep_after, hsw, hinf, ExtCall.nonceAt]
    | some info =>
      by_cases hpr : info.payment_received = false
      · simp [execute_sweep_after, hsw, hinf, hpr, ExtCall.nonceAt]
      · by_cases hl : info.payment_amounts.length = 0
        · simp [execute_sweep_after, hsw, hinf, hpr, hl, ExtCall.nonceAt]
        · cases hh : info.payment_amounts.head? with
          | none => simp [execute_sweep_after, hsw, hinf, hpr, hl, hh, ExtCall.nonceAt]
          | some amt => simp [execute_sweep_after, hsw, hinf, hpr, hl, hh, ExtCall.nonceAt]

theorem execute_sweep_gen_not_ok (v : Outcome Unit) (o : AccountOracle)
    (s : ControllerState) (dest : Nat) (hv : v ≠ .ok ()) :
    (execute_sweep_gen v o s dest).2.1 = s ∧
    (execute_sweep_gen v o s dest).2.2 = [] := by
  unfold execute_sweep_gen
  cases v with
  | ok u => exact absurd rfl hv
  | err e =>
    cases hd : s.authorized_destination with
    | none => simp [hd]
    | some ad =>
      by_cases hne : dest ≠ ad
      · simp [hd, hne]
      · simp [hd, hne]
  | trap =>
    cases hd : s.authorized_destination with
    | none => simp [hd]
    | some ad =>
      by_cases hne : dest ≠ ad
      · simp [hd, hne]
      · simp [hd, hne]

theorem execute_sweep_gen_ok_pin (o : AccountOracle) (s : ControllerState)
    (dest : Nat) (hpin : pinOk s dest) :
    execute_sweep_gen (.ok ()) o s dest
      = execute_sweep_after o (increment_sweep_nonce s) dest := by
  unfold execute_sweep_gen
  unfold pinOk at hpin
  cases hd : s.authorized_destination with
  | none => simp [hd]
  | some ad =>
    rw [hd] at hpin
    simp [hd, hpin]

theorem committedCtrl_cases (s0 : ControllerState)
    (r : Outcome Unit × ControllerState × List ExtCall) :
    committedCtrl s0 r = s0 ∨ committedCtrl s0 r = r.2.1 := by
  obtain ⟨o1, s1, tr⟩ := r
  cases o1 <;> simp [committedCtrl]

theorem execute_sweep_gen_state (v : Outcome Unit) (o : AccountOracle)
    (s : ControllerState) (dest : Nat) :
    (execute_sweep_gen v o s dest).2.1 = s ∨
    (execute_sweep_gen v o s dest).2.1 = increment_sweep_nonce s := by
  cases v with
  | ok u =>
    by_cases hpin : pinOk s dest
    · rw [execute_sweep_gen_ok_pin o s dest hpin]
      exact Or.inr (execute_sweep_after_spec o _ dest).1
    · refine Or.inl ?_
      unfold execute_sweep_gen
      unfold pinOk at hpin
      cases hd : s.authorized_destination with
      | none => rw [hd] at hpin; exact absurd trivial hpin
      | some ad =>
        rw [hd] at hpin
        simp at hpin
        simp [hd, hpin]
  | err e => exact Or.inl (execute_sweep_gen_not_ok _ o s dest (by simp)).1
  | trap => exact Or.inl (execute_sweep_gen_not_ok _ o s dest (by simp)).1

theorem ctrlApply_execOp_spec (v : Outcome Unit) (o : AccountOracle) (dest : Nat)
    (s : ControllerState) :
    (ctrlApply s (.execOp v o dest)).authorized_signer = s.authorized_signer ∧
    (ctrlApply s (.execOp v o dest)).authorized_destination = s.authorized_destination ∧
    ((ctrlApply s (.execOp v o dest)).sweep_nonce = s.sweep_nonce ∨
      (ctrlApply s (.execOp v o dest)).sweep_nonce = (s.sweep_nonce + 1) % 2 ^ 64) := by
  have hcc := committedCtrl_cases s (execute_sweep_gen v o s dest)
  have hst := execute_sweep_gen_state v o s dest
  have he : ctrlApply s (.execOp v o dest)
      = committedCtrl s (execute_sweep_gen v o s dest) := rfl
  rw [he]
  rcases hcc with hc | hc
  · rw [hc]; exact ⟨rfl, rfl, Or.inl rfl⟩
  · rcases hst with hx | hx
    · rw [hc, hx]; exact ⟨rfl, rfl, Or.inl rfl⟩
    · rw [hc, hx]; exact ⟨rfl, rfl, Or.inr rfl⟩

theorem initController_ok {s : ControllerState} {a : Nat} {sig : List Nat}
    {d : Option Nat} {s1 : ControllerState}
    (hk : initController s a sig d = .ok s1) :
    s.authorized_signer.isSome = false ∧ s1.authorized_signer = some sig ∧
    s1.sweep_nonce = 0 := by
  unfold initController at hk
  split at hk
  · simp at hk
  · rename_i hns
    injection hk with hk
    rw [← hk]
    exact ⟨by simpa using hns, rfl, rfl⟩

theorem update_authorized_destination_ok {s : ControllerState} {d : Nat}
    {s1 : ControllerState} (hk : update_authorized_destination s d = .ok s1) :
    s1.authorized_signer = s.authorized_signer ∧ s1.sweep_nonce = s.sweep_nonce := by
  unfold update_authorized_destination at hk
  split at hk
  · simp at hk
  · split at hk
    · simp at hk
    · injection hk with hk
      rw [← hk]
      exact ⟨rfl, rfl⟩

theorem ctrlReachable_signer_none_nonce_zero {s : ControllerState}
    (hr : CtrlReachable s) : s.authorized_signer = none → s.sweep_nonce = 0 := by
  induction hr with
  | start => intro _; rfl
  | step hr0 op hs ih =>
    rename_i s0
    cases op with
    | initCtrl a sig d =>
      intro hnone
      simp only [ctrlApply] at hnone ⊢
      cases hk : initController s0 a sig d with
      | error e =>
        rw [hk] at hnone
        simp at hnone ⊢
        exact ih hnone
      | ok s1 =>
        simp only []
        have hq := (initController_ok hk).2.2
        simpa using hq
    | execOp v o dest =>
      intro hnone
      have hsp := ctrlApply_execOp_spec v o dest s0
      have hnone0 : s0.authorized_signer = none := by
        rw [← hsp.1]; exact hnone
      have hv : v ≠ .ok () := by
        intro hvok
        have hsome := hs hvok
        rw [hnone0] at hsome
        simp at hsome
      have hq := execute_sweep_gen_not_ok v o s0 dest hv
      have hcc := committedCtrl_cases s0 (execute_sweep_gen v o s0 dest)
      show (committedCtrl s0 (execute_sweep_gen v o s0 dest)).sweep_nonce = 0
      rcases hcc with hc | hc
      · rw [hc]; exact ih hnone0
      · rw [hc, hq.1]; exact ih hnone0
    | updateDest d =>
      intro hnone
      simp only [ctrlApply] at hnone ⊢
      cases hk : update_authorized_destination s0 d with
      | error e =>
        rw [hk] at hnone
        simp at hnone ⊢
        exact ih hnone
      | ok s1 =>
        rw [hk] at hnone
        simp at hnone ⊢
        obtain ⟨hsig, hnn⟩ := update_authorized_destination_ok hk
        rw [hnn]
        refine ih ?_
        rw [← hsig]
        exact hnone

/-- C2: the controller nonce protocol. The nonce starts at 0 (both on the
fresh controller and after the constructor); when verification succeeds
and the pinned-destination gate passes, execute_sweep stores nonce + 1
before it makes any cross-component call, and every such call observes
the incremented value; when verification does not succeed, no call is
made and the state is returned unchanged; and along every reachable
controller history the stored nonce never decreases, so it is never
decremented or reset by any controller operation. -/
theorem C2_nonce_protocol :
    emptyController.sweep_nonce = 0 ∧
    (∀ s a sig d s1, initController s a sig d = .ok s1 → s1.sweep_nonce = 0) ∧
    (∀ (o : AccountOracle) (s : ControllerState) (dest : Nat),
      pinOk s dest → s.sweep_nonce + 1 < 2 ^ 64 →
      (execute_sweep_gen (.ok ()) o s dest).2.1.sweep_nonce = s.sweep_nonce + 1 ∧
      ∀ c ∈ (execute_sweep_gen (.ok ()) o s dest).2.2,
        c.nonceAt = s.sweep_nonce + 1) ∧
    (∀ (v : Outcome Unit) (o : AccountOracle) (s : ControllerState) (dest : Nat),
      v ≠ .ok () →
      (execute_sweep_gen v o s dest).2.1 = s ∧
      (execute_sweep_gen v o s dest).2.2 = []) ∧
    (∀ s : ControllerState, CtrlReachable s → ∀ op, CtrlOpSound s op →
      s.sweep_nonce + 1 < 2 ^ 64 → s.sweep_nonce ≤ (ctrlApply s op).sweep_nonce) := by
  refine ⟨rfl, ?_, ?_, ?_, ?_⟩
  · intro s a sig d s1 hk
    exact (initController_ok hk).2.2
  · intro o s dest hpin hlt
    rw [execute_sweep_gen_ok_pin o s dest hpin]
    have hsp := execute_sweep_after_spec o (increment_sweep_nonce s) dest
    have hinc : (increment_sweep_nonce s).sweep_nonce = s.sweep_nonce + 1 := by
      unfold increment_sweep_nonce
      exact Nat.mod_eq_of_lt hlt
    constructor
    · rw [hsp.1, hinc]
    · intro c hc
      rw [hsp.2 c hc, hinc]
  · intro v o s dest hv
    exact execute_sweep_gen_not_ok v o s dest hv
  · intro s hr op hs hlt
    cases op with
    | initCtrl a sig d =>
      cases hk : initController s a sig d with
      | error e => simp [ctrlApply, hk]
      | ok s1 =>
        have hz : s.sweep_nonce = 0 :=
          ctrlReachable_signer_none_nonce_zero hr
            (Option.not_isSome_iff_eq_none.mp (by simp [(initController_ok hk).1]))
        have hle : (ctrlApply s (CtrlOp.initCtrl a sig d)).sweep_nonce
            = s1.sweep_nonce := by simp [ctrlApply, hk]
        rw [hle, hz, (initController_ok hk).2.2]
    | execOp v o dest =>
      have hsp := ctrlApply_execOp_spec v o dest s
      rcases hsp.2.2 with hn | hn
      · rw [hn]
      · rw [hn, Nat.mod_eq_of_lt hlt]
        omega
    | updateDest d =>
      cases hk : update_authorized_destination s d with
      | error e => simp [ctrlApply, hk]
      | ok s1 =>
        have hle : (ctrlApply s (CtrlOp.updateDest d)).sweep_nonce
            = s1.sweep_nonce := by simp [ctrlApply, hk]
        rw [hle, (update_authorized_destination_ok hk).2]

/-- Witness for C2: on the concrete initialized controller with nonce 0,
a successfully verified execute_sweep stores nonce 1 and both
cross-component calls in its trace observe nonce 1. -/
theorem C2_nonce_protocol_witness :
    (execute_sweep_gen (.ok ()) oracleEx ctrlEx 5).2.1.sweep_nonce = 1 ∧
    ∀ c ∈ (execute_sweep_gen (.ok ()) oracleEx ctrlEx 5).2.2, c.nonceAt = 1 := by
  have hq := C2_nonce_protocol.2.2.1 oracleEx ctrlEx 5 trivial (by decide)
  exact hq

theorem runTransfers_mem (tok : Nat → Int → Bool) (acct : AccountState) :
    ∀ (pays : List (Nat × Int)) (tr : List (MAction × AccountState))
      (x : MAction × AccountState), x ∈ (runTransfers tok acct tr pays).2 →
      x ∈ tr ∨ ∃ a amt, x = (MAction.transferCall a amt, acct) := by
  intro pays
  induction pays with
  | nil =>
    intro tr x hx
    exact Or.inl hx
  | cons p rest ih =>
    intro tr x hx
    obtain ⟨a, amt⟩ := p
    simp only [runTransfers] at hx
    by_cases hok : tok a amt
    · rw [if_pos hok] at hx
      rcases ih _ x hx with hmem | hnew
      · rcases List.mem_append.mp hmem with h1 | h2
        · exact Or.inl h1
        · exact Or.inr ⟨a, amt, List.mem_singleton.mp h2⟩
      · exact Or.inr hnew
    · rw [if_neg hok] at hx
      rcases List.mem_append.mp hx with h1 | h2
      · exact Or.inl h1
      · exact Or.inr ⟨a, amt, List.mem_singleton.mp h2⟩

theorem sweep_already_swept {s : AccountState} {h2 d2 : Nat} {sig2 : List Nat}
    (hin : s.initialized = true) (hst : s.status = .Swept) :
    sweep s h2 d2 sig2 = .error .AlreadySwept := by
  unfold sweep
  simp [hin, hst]

theorem execute_sweep_multi_transfer_state (v : Outcome Unit)
    (tok : Nat → Int → Bool) (acct : AccountState) (h d : Nat) (sig : List Nat)
    (rto : Option Nat) (a : Nat) (amt : Int) (st : AccountState)
    (hmem : (MAction.transferCall a amt, st)
      ∈ (execute_sweep_multi v tok acct h d sig rto).2.2) :
    st.status = .Swept ∧ st.swept_to = some d := by
  unfold execute_sweep_multi at hmem
  split at hmem
  · simp at hmem
  · simp at hmem
  · split at hmem
    · simp at hmem
    · rename_i acct1 ev heq
      obtain ⟨hin, hnsw, hp, hne, hs1, hev⟩ := sweep_ok heq
      have hfields : acct1.status = .Swept ∧ acct1.swept_to = some d := by
        rw [hs1]; exact ⟨rfl, rfl⟩
      split at hmem
      · simp at hmem
      · split at hmem
        · rename_i trN heqt
          have hx2 : (MAction.transferCall a amt, st)
              ∈ (runTransfers tok acct1
                [(MAction.acctSweepCall, acct), (MAction.acctGetPayments, acct1)]
                (acct1.payments.map (fun p => (p.asset, p.amount)))).2 := by
            rw [heqt]
            exact hmem
          rcases runTransfers_mem tok acct1 _ _ _ hx2 with hold | ⟨a2, amt2, hxeq⟩
          · simp at hold
          · have hst2 : st = acct1 := congrArg Prod.snd hxeq
            rw [hst2]
            exact hfields
        · rename_i trN heqt
          split at hmem
          all_goals
            rcases List.mem_append.mp hmem with hleft | hright
          · have hx2 : (MAction.transferCall a amt, st)
                ∈ (runTransfers tok acct1
                  [(MAction.acctSweepCall, acct), (MAction.acctGetPayments, acct1)]
                  (acct1.payments.map (fun p => (p.asset, p.amount)))).2 := by
              rw [heqt]
              exact hleft
            rcases runTransfers_mem tok acct1 _ _ _ hx2 with hold | ⟨a2, amt2, hxeq⟩
            · simp at hold
            · have hst2 : st = acct1 := congrArg Prod.snd hxeq
              rw [hst2]
              exact hfields
          · simp at hright
          · have hx2 : (MAction.transferCall a amt, st)
                ∈ (runTransfers tok acct1
                  [(MAction.acctSweepCall, acct), (MAction.acctGetPayments, acct1)]
                  (acct1.payments.map (fun p => (p.asset, p.amount)))).2 := by
              rw [heqt]
              exact hleft
            rcases runTransfers_mem tok acct1 _ _ _ hx2 with hold | ⟨a2, amt2, hxeq⟩
            · simp at hold
            · have hst2 : st = acct1 := congrArg Prod.snd hxeq
              rw [hst2]
              exact hfields
          · simp at hright

/-- C3: in every run of the multi-asset execute_sweep, any transfer call
observes an account state already marked Swept with swept_to set to the
destination (the account commits its state before the controller moves any
value); and once a sweep has succeeded, every further sweep call on the
resulting state fails with AlreadySwept, and a further execute_sweep run
makes no transfer call and leaves the account state unchanged. -/
theorem C3_state_first_then_transfer :
    (∀ (v : Outcome Unit) (tok : Nat → Int → Bool) (acct : AccountState)
       (h d : Nat) (sig : List Nat) (rto : Option Nat) (a : Nat) (amt : Int)
       (st : AccountState),
       (MAction.transferCall a amt, st)
         ∈ (execute_sweep_multi v tok acct h d sig rto).2.2 →
       st.status = .Swept ∧ st.swept_to = some d) ∧
    (∀ (acct : AccountState) (h d : Nat) (sig : List Nat) (s1 : AccountState)
       (ev : SweepExecutedEv), sweep acct h d sig = .ok (s1, ev) →
       (∀ h2 d2 sig2, sweep s1 h2 d2 sig2 = .error .AlreadySwept) ∧
       (∀ (v : Outcome Unit) (tok : Nat → Int → Bool) (h2 d2 : Nat)
          (sig2 : List Nat) (rto : Option Nat),
          (execute_sweep_multi v tok s1 h2 d2 sig2 rto).2.1 = s1 ∧
          ∀ a amt st, (MAction.transferCall a amt, st)
            ∉ (execute_sweep_multi v tok s1 h2 d2 sig2 rto).2.2)) := by
  constructor
  · exact fun v tok acct h d sig rto a amt st hmem =>
      execute_sweep_multi_transfer_state v tok acct h d sig rto a amt st hmem
  · intro acct h d sig s1 ev hk
    obtain ⟨hin, hnsw, hp, hne, hs1, hev⟩ := sweep_ok hk
    have hin1 : s1.initialized = true := by rw [hs1]; exact hin
    have hst1 : s1.status = .Swept := by rw [hs1]
    have hsw : ∀ h2 d2 sig2, sweep s1 h2 d2 sig2 = .error .AlreadySwept :=
      fun h2 d2 sig2 => sweep_already_swept hin1 hst1
    refine ⟨hsw, fun v tok h2 d2 sig2 rto => ?_⟩
    cases v with
    | err e => exact ⟨rfl, by simp [execute_sweep_multi]⟩
    | trap => exact ⟨rfl, by simp [execute_sweep_multi]⟩
    | ok u =>
      constructor
      · show (execute_sweep_multi (.ok u) tok s1 h2 d2 sig2 rto).2.1 = s1
        unfold execute_sweep_multi
        rw [hsw h2 d2 sig2]
      · intro a amt st
        unfold execute_sweep_multi
        rw [hsw h2 d2 sig2]
        simp

/-- Witness for C3: on the concrete account swept at height 6 to
destination 9, a second sweep fails with AlreadySwept. -/
theorem C3_state_first_then_transfer_witness :
    sweep exSwept 7 11 [0] = .error .AlreadySwept := by
  have hk : sweep exA1 6 9 [0] = .ok (exSwept,
      { destination := 9, assets := [(7, 100)], reserve_reclaimed := 20000000 }) := by
    rfl
  exact (C3_state_first_then_transfer.2 exA1 6 9 [0] exSwept
    { destination := 9, assets := [(7, 100)], reserve_reclaimed := 20000000 } hk).1 7 11 [0]

theorem findPayment_append_none {ps : List Payment} {x a : Nat} {amt : Int}
    {now : Nat} (hx : findPayment ps x = none) (hne : x ≠ a) :
    findPayment (ps ++ [{ asset := a, amount := amt, timestamp := now }]) x
      = none := by
  unfold findPayment at *
  rw [List.find?_eq_none] at *
  intro p hp
  rcases List.mem_append.mp hp with h1 | h2
  · exact hx p h1
  · rw [List.mem_singleton.mp h2]
    simp only [beq_iff_eq]
    intro hax
    exact hne (by simpa using hax.symm)

theorem record_payment_too_many {s : AccountState} (now : Nat) {amt : Int}
    {a : Nat} (hin : s.initialized = true)
    (hst : ¬(s.status = .Swept ∨ s.status = .Expired)) (hamt : 0 < amt)
    (hdup : findPayment s.payments a = none)
    (hlen : MAX_ASSETS ≤ s.payments.length) :
    record_payment s now amt a = .error .TooManyPayments := by
  have hamt2 : ¬(amt ≤ 0) := by omega
  unfold record_payment add_payment
  simp [hin, hamt2, hst, hdup, hlen]

theorem record_payment_ok_exists {s : AccountState} (now : Nat) {amt : Int}
    {a : Nat} (hin : s.initialized = true)
    (hst : ¬(s.status = .Swept ∨ s.status = .Expired)) (hamt : 0 < amt)
    (hdup : findPayment s.payments a = none)
    (hlen : s.payments.length < MAX_ASSETS) :
    ∃ s1, record_payment s now amt a = .ok s1 := by
  have hamt2 : ¬(amt ≤ 0) := by omega
  have hlen2 : ¬(MAX_ASSETS ≤ s.payments.length) := by omega
  unfold record_payment add_payment
  simp [hin, hamt2, hst, hdup, hlen2]

theorem runPaymentsCount_spec (now : Nat) :
    ∀ (calls : List (Int × Nat)) (s : AccountState),
      s.initialized = true →
      (s.status = .Active ∨ s.status = .PaymentReceived) →
      (calls.map Prod.snd).Nodup →
      (∀ c ∈ calls, 0 < c.1) →
      (∀ c ∈ calls, findPayment s.payments c.2 = none) →
      s.payments.length ≤ MAX_ASSETS →
      (runPaymentsCount s now calls).2
        = min calls.length (MAX_ASSETS - s.payments.length) ∧
      (runPaymentsCount s now calls).1.payments.length
        = s.payments.length + min calls.length (MAX_ASSETS - s.payments.length) ∧
      (runPaymentsCount s now calls).1.initialized = true ∧
      ((runPaymentsCount s now calls).1.status = .Active ∨
        (runPaymentsCount s now calls).1.status = .PaymentReceived) ∧
      (∀ x, x ∉ calls.map Prod.snd → findPayment s.payments x = none →
        findPayment (runPaymentsCount s now calls).1.payments x = none) := by
  intro calls
  induction calls with
  | nil =>
    intro s hin hst hnd hpos hfresh hlen
    refine ⟨by simp [runPaymentsCount], by simp [runPaymentsCount],
      by simpa [runPaymentsCount] using hin,
      by simpa [runPaymentsCount] using hst, ?_⟩
    intro x _ hf
    simpa [runPaymentsCount] using hf
  | cons c rest ih =>
    intro s hin hst hnd hpos hfresh hlen
    obtain ⟨amt, a⟩ := c
    have hstn : ¬(s.status = .Swept ∨ s.status = .Expired) := by
      rcases hst with hx | hx <;> simp [hx]
    rw [List.map_cons] at hnd
    have hnd1 : (rest.map Prod.snd).Nodup := (List.nodup_cons.mp hnd).2
    have hna : a ∉ rest.map Prod.snd := (List.nodup_cons.mp hnd).1
    have hposh : 0 < amt := hpos (amt, a) (List.mem_cons_self _ _)
    have hfra : findPayment s.payments a = none :=
      hfresh (amt, a) (List.mem_cons_self _ _)
    by_cases hfull : MAX_ASSETS ≤ s.payments.length
    · have hfe : s.payments.length = MAX_ASSETS := by omega
      have herr := record_payment_too_many now hin hstn hposh hfra hfull
      have ihres := ih s hin hst hnd1
        (fun c hc => hpos c (List.mem_cons_of_mem _ hc))
        (fun c hc => hfresh c (List.mem_cons_of_mem _ hc)) hlen
      obtain ⟨i1, i2, i3, i4, i5⟩ := ihres
      have hrun : runPaymentsCount s now ((amt, a) :: rest)
          = ((runPaymentsCount s now rest).1, (runPaymentsCount s now rest).2) := by
        simp [runPaymentsCount, herr]
      rw [hrun]
      refine ⟨by rw [i1]; omega, by rw [i2]; omega, i3, i4, ?_⟩
      intro x hx hf
      refine i5 x (fun hmem => hx ?_) hf
      rw [List.map_cons]
      exact List.mem_cons_of_mem _ hmem
    · have hlt : s.payments.length < MAX_ASSETS := by omega
      obtain ⟨s1, hok⟩ := record_payment_ok_exists now hin hstn hposh hfra hlt
      obtain ⟨_, _, _, _, _, hpay1, hst1, hin1, _, _, _, _, _, _⟩ :=
        record_payment_ok hok
      have hin1t : s1.initialized = true := by rw [hin1]; exact hin
      have hst1d : s1.status = .Active ∨ s1.status = .PaymentReceived := by
        rw [hst1]
        by_cases hz : s.payments.length = 0
        · simp [hz]
        · simp [hz]; exact hst
      have hlen1 : s1.payments.length = s.payments.length + 1 := by
        rw [hpay1]; simp
      have hfresh1 : ∀ c ∈ rest, findPayment s1.payments c.2 = none := by
        intro c hc
        rw [hpay1]
        refine findPayment_append_none (hfresh c (List.mem_cons_of_mem _ hc)) ?_
        intro hceq
        exact hna (by rw [← hceq]; exact List.mem_map_of_mem Prod.snd hc)
      have ihres := ih s1 hin1t hst1d hnd1
        (fun c hc => hpos c (List.mem_cons_of_mem _ hc)) hfresh1
        (by omega)
      obtain ⟨i1, i2, i3, i4, i5⟩ := ihres
      have hrun : runPaymentsCount s now ((amt, a) :: rest)
          = ((runPaymentsCount s1 now rest).1,
             (runPaymentsCount s1 now rest).2 + 1) := by
        simp [runPaymentsCount, hok]
      rw [hrun]
      refine ⟨?_, ?_, i3, i4, ?_⟩
      · rw [i1, hlen1]
        simp only [List.length_cons]
        omega
      · rw [i2, hlen1]
        simp only [List.length_cons]
        omega
      · intro x hx hf
        have hx2 : x ∉ List.map Prod.snd ((amt, a) :: rest) := hx
        refine i5 x (fun hmem => hx2 ?_) ?_
        · rw [List.map_cons]
          exact List.mem_cons_of_mem _ hmem
        · rw [hpay1]
          refine findPayment_append_none hf ?_
          intro hxa
          refine hx2 ?_
          rw [hxa, List.map_cons]
          exact List.mem_cons_self _ _

/-- C5: starting from an initialized, non-terminal account with no
payments, a sequence of record_payment calls with pairwise-distinct assets
and positive amounts succeeds exactly min(n, 10) times, and the payments
map then holds exactly that many entries, never more than 10; once 10
distinct-asset calls have succeeded, a further call with a fresh asset
fails with TooManyPayments and leaves the account state unchanged. -/
theorem C5_payment_cap {s : AccountState} (hin : s.initialized = true)
    (hst : s.status = .Active ∨ s.status = .PaymentReceived)
    (hpe : s.payments = []) (now : Nat) (calls : List (Int × Nat))
    (hnd : (calls.map Prod.snd).Nodup) (hpos : ∀ c ∈ calls, 0 < c.1) :
    (runPaymentsCount s now calls).2 = min calls.length 10 ∧
    (runPaymentsCount s now calls).1.payments.length = min calls.length 10 ∧
    (runPaymentsCount s now calls).1.payments.length ≤ 10 ∧
    (∀ (now2 h : Nat) (amt : Int) (a : Nat), 0 < amt →
      a ∉ calls.map Prod.snd → 10 ≤ calls.length →
      record_payment (runPaymentsCount s now calls).1 now2 amt a
        = .error .TooManyPayments ∧
      acctApply (runPaymentsCount s now calls).1 h now2 (.payOp amt a)
        = (runPaymentsCount s now calls).1) := by
  have hq := runPaymentsCount_spec now calls s hin hst hnd hpos
    (fun c _ => by rw [hpe]; rfl) (by rw [hpe]; simp [MAX_ASSETS])
  obtain ⟨h1, h2, h3, h4, h5⟩ := hq
  rw [hpe] at h1 h2
  simp only [List.length_nil, Nat.sub_zero, Nat.zero_add] at h1 h2
  have hmax : MAX_ASSETS = 10 := rfl
  rw [hmax] at h1 h2
  refine ⟨h1, h2, by omega, ?_⟩
  intro now2 h amt a hamt hna hcl
  have hflen : (runPaymentsCount s now calls).1.payments.length = 10 := by
    rw [h2]; omega
  have hstn : ¬((runPaymentsCount s now calls).1.status = .Swept ∨
      (runPaymentsCount s now calls).1.status = .Expired) := by
    rcases h4 with hx | hx <;> simp [hx]
  have hfra : findPayment (runPaymentsCount s now calls).1.payments a = none :=
    h5 a hna (by rw [hpe]; rfl)
  have herr := record_payment_too_many now2 h3 hstn hamt hfra
    (by rw [hflen]; decide)
  exact ⟨herr, by simp [acctApply, herr]⟩

/-- Witness for C5: ten distinct-asset payments on the fresh concrete
account all succeed, and the eleventh distinct asset is rejected with
TooManyPayments. -/
theorem C5_payment_cap_witness :
    (runPaymentsCount exA0 5 [(1, 1), (1, 2), (1, 3), (1, 4), (1, 5), (1, 6),
      (1, 7), (1, 8), (1, 9), (1, 10)]).2 = 10 ∧
    record_payment (runPaymentsCount exA0 5 [(1, 1), (1, 2), (1, 3), (1, 4),
      (1, 5), (1, 6), (1, 7), (1, 8), (1, 9), (1, 10)]).1 6 1 11
      = .error .TooManyPayments := by
  have hq := @C5_payment_cap exA0 (by decide) (by decide) (by decide) 5
    [(1, 1), (1, 2), (1, 3), (1, 4), (1, 5), (1, 6), (1, 7), (1, 8), (1, 9),
      (1, 10)] (by decide) (by decide)
  exact ⟨hq.1, (hq.2.2.2 6 6 1 11 (by decide) (by decide) (by decide)).1⟩

/-- C6 counterexample: on the concrete swept account, which is initialized
and holds a record for asset 7, record_payment with asset 7 and a positive
amount fails with InvalidStatus, not DuplicateAsset as the claim states. -/
theorem C6_counterexample :
    exSwept.initialized = true ∧ (findPayment exSwept.payments 7).isSome = true ∧
    0 < (50 : Int) ∧
    record_payment exSwept 8 50 7 = .error .InvalidStatus ∧
    Error.InvalidStatus ≠ Error.DuplicateAsset :=
  ⟨by decide, by decide, by decide, rfl, by decide⟩

/-- C6 amended: on an initialized account holding a record for the asset,
a record_payment call with that asset and a positive amount fails with
DuplicateAsset when the status is not terminal, fails with InvalidStatus
when the status is Swept or Expired, and in either case the account state
(so in particular the stored record) is unchanged. -/
theorem C6_duplicate_asset_amended {s : AccountState} {now : Nat} {amt : Int}
    {a : Nat} (hin : s.initialized = true)
    (hdup : (findPayment s.payments a).isSome = true) (hamt : 0 < amt) :
    (¬(s.status = .Swept ∨ s.status = .Expired) →
      record_payment s now amt a = .error .DuplicateAsset) ∧
    ((s.status = .Swept ∨ s.status = .Expired) →
      record_payment s now amt a = .error .InvalidStatus) ∧
    (∀ h, acctApply s h now (.payOp amt a) = s) := by
  have hamt2 : ¬(amt ≤ 0) := by omega
  have hdupe : record_payment s now amt a = .error .DuplicateAsset
      ∨ record_payment s now amt a = .error .InvalidStatus := by
    by_cases hst : s.status = .Swept ∨ s.status = .Expired
    · refine Or.inr ?_
      unfold record_payment
      simp [hin, hamt2, hst]
    · refine Or.inl ?_
      unfold record_payment add_payment
      simp [hin, hamt2, hst, hdup]
  refine ⟨fun hstn => ?_, fun hstt => ?_, fun h => ?_⟩
  · unfold record_payment add_payment
    simp [hin, hamt2, hstn, hdup]
  · unfold record_payment
    simp [hin, hamt2, hstt]
  · rcases hdupe with he | he <;> simp [acctApply, he]

/-- Witness for the amended C6: on the concrete account holding a record
for asset 7 in status PaymentReceived, a duplicate call fails with
DuplicateAsset. -/
theorem C6_duplicate_asset_amended_witness :
    record_payment exA1 9 33 7 = .error .DuplicateAsset := by
  have hq := @C6_duplicate_asset_amended exA1 9 33 7 (by decide) (by decide)
    (by decide)
  exact hq.1 (by decide)

theorem reclaimable_eq_max (b m : Int) :
    (if b > m then b - m else 0) = max (b - m) 0 := by
  split
  · rename_i hbm
    exact (max_eq_left (by omega)).symm
  · rename_i hbm
    exact (max_eq_right (by omega)).symm

/-- C7: the base reserve stored at creation is
ACCOUNT_BASE_RESERVE + n * BASE_RESERVE_PER_ENTRY (25,000,000 for n = 3);
reclaim_reserve on a swept, not-yet-reclaimed account returns
max(base_reserve - MIN_BALANCE_FOR_CLOSE, 0) and latches the reclaimed
flag, a second call fails with the reused AlreadySwept error kind and
returns no amount, and a call on a non-swept account fails with
InvalidStatus. -/
theorem C7_reserve_accounting :
    (∀ (s : AccountState) (h c e r n : Nat) (s1 : AccountState),
      initAccount s h c e r n = .ok s1 →
      s1.base_reserve = ACCOUNT_BASE_RESERVE + (n : Int) * BASE_RESERVE_PER_ENTRY) ∧
    calculate_base_reserve 3 = 25000000 ∧
    (∀ (s : AccountState) (r : Nat), s.initialized = true → s.status = .Swept →
      s.reserve_reclaimed = false →
      ∃ ev, reclaim_reserve s r = .ok ({ s with reserve_reclaimed := true },
          max (s.base_reserve - MIN_BALANCE_FOR_CLOSE) 0, ev) ∧
        ∀ r2, reclaim_reserve { s with reserve_reclaimed := true } r2
          = .error .AlreadySwept) ∧
    (∀ (s : AccountState) (r : Nat), s.initialized = true → s.status ≠ .Swept →
      reclaim_reserve s r = .error .InvalidStatus) := by
  refine ⟨?_, by decide, ?_, ?_⟩
  · intro s h c e r n s1 hk
    obtain ⟨_, _, rfl⟩ := initAccount_ok hk
    simp [calculate_base_reserve]
    ring
  · intro s r hin hsw hrec
    have hk : reclaim_reserve s r = .ok ({ s with reserve_reclaimed := true },
        max (s.base_reserve - MIN_BALANCE_FOR_CLOSE) 0,
        if max (s.base_reserve - MIN_BALANCE_FOR_CLOSE) 0 > 0 then
          some { recipient := r, amount := max (s.base_reserve - MIN_BALANCE_FOR_CLOSE) 0 }
        else none) := by
      unfold reclaim_reserve
      simp only [hin, hsw, hrec]
      rw [reclaimable_eq_max]
      simp
    refine ⟨_, hk, ?_⟩
    intro r2
    unfold reclaim_reserve
    simp [hin, hsw]
  · intro s r hin hst
    unfold reclaim_reserve
    simp [hin, hst]

/-- Witness for C7 on the concrete swept account (base reserve 20,000,000):
the first reclaim returns 19,000,000 and the second fails AlreadySwept. -/
theorem C7_reserve_accounting_witness :
    calculate_base_reserve 3 = 25000000 ∧
    ∃ ev, reclaim_reserve exSwept 9 = .ok ({ exSwept with reserve_reclaimed := true },
        max (exSwept.base_reserve - MIN_BALANCE_FOR_CLOSE) 0, ev) ∧
      ∀ r2, reclaim_reserve { exSwept with reserve_reclaimed := true } r2
        = .error .AlreadySwept := by
  refine ⟨C7_reserve_accounting.2.1, ?_⟩
  exact C7_reserve_accounting.2.2.1 exSwept 9 (by decide) (by decide) (by decide)

/-- C8 counterexample: the concrete expired account holds payments of 100
and 200, whose amounts sum to 300, yet the AccountExpired record emitted
by expire carries the asset count 2 and the returned reserve 19,000,000 -
no field of it is the payment-amount sum 300. -/
theorem C8_counterexample :
    expire exB2 12 = .ok ({ exB2 with
        status := .Expired
        swept_to := some 3
        reserve_reclaimed := true },
      { recovery_address := 3, total_assets := 2, reserve_returned := 19000000 }) ∧
    (exB2.payments.map Payment.amount).sum = 300 ∧
    (2 : Int) ≠ 300 ∧ (19000000 : Int) ≠ 300 :=
  ⟨rfl, by decide, by decide, by decide⟩

/-- C8 amended: for an initialized account with status Active or
PaymentReceived, expire at or past the expiry height succeeds, sets the
status to Expired, sets swept_to to the recovery address, latches
reserve_reclaimed, and emits the recovery address, the number of recorded
assets (not the sum of payment amounts) and the returned reserve
max(base_reserve - MIN_BALANCE_FOR_CLOSE, 0); before the expiry height it
fails with NotExpired and changes nothing. -/
theorem C8_expire_behaviour {s : AccountState} {h : Nat}
    (hin : s.initialized = true)
    (hst : s.status = .Active ∨ s.status = .PaymentReceived) :
    (s.expiry_ledger ≤ h →
      expire s h = .ok ({ s with
          status := .Expired
          swept_to := some s.recovery_address
          reserve_reclaimed := true },
        { recovery_address := s.recovery_address,
          total_assets := s.payments.length,
          reserve_returned := max (s.base_reserve - MIN_BALANCE_FOR_CLOSE) 0 })) ∧
    (h < s.expiry_ledger →
      expire s h = .error .NotExpired ∧ ∀ now, acctApply s h now .expireOp = s) := by
  have hstn : ¬(s.status = .Swept ∨ s.status = .Expired) := by
    rcases hst with hx | hx <;> simp [hx]
  constructor
  · intro hle
    have hexp : is_expired s h = true := by simp [is_expired, hin, hle]
    unfold expire
    simp only [hin, hstn, hexp]
    rw [reclaimable_eq_max]
    simp
  · intro hlt
    have hexp : is_expired s h = false := by
      simp [is_expired, hin]
      omega
    have herr : expire s h = .error .NotExpired := by
      unfold expire
      simp [hin, hstn, hexp]
    exact ⟨herr, fun now => by simp [acctApply, herr]⟩

/-- Witness for the amended C8 at the concrete two-payment account past
its expiry height, and its NotExpired failure before that height. -/
theorem C8_expire_behaviour_witness :
    expire exB2 12 = .ok ({ exB2 with
        status := .Expired
        swept_to := some exB2.recovery_address
        reserve_reclaimed := true },
      { recovery_address := exB2.recovery_address,
        total_assets := exB2.payments.length,
        reserve_returned := max (exB2.base_reserve - MIN_BALANCE_FOR_CLOSE) 0 }) ∧
    expire exB2 7 = .error .NotExpired := by
  refine ⟨(C8_expire_behaviour (by decide) (by decide)).1 (by decide), ?_⟩
  exact ((C8_expire_behaviour (by decide) (by decide)).2 (by decide)).1

/-- C10: get_status of an account whose storage was never initialized is
Active, which coincides with get_status of any initialized account in the
Active state - the two are indistinguishable through get_status. -/
theorem C10_get_status_uninitialized {s t : AccountState}
    (hs : s.initialized = false) (ht : t.initialized = true)
    (hta : t.status = .Active) :
    get_status s = .Active ∧ get_status s = get_status t := by
  unfold get_status
  simp [hs, ht, hta]

/-- Witness for C10: the fresh storage and the concrete just-created
account both report Active. -/
theorem C10_get_status_uninitialized_witness :
    get_status emptyAccount = .Active ∧
    get_status emptyAccount = get_status exA0 :=
  C10_get_status_uninitialized (by decide) (by decide) (by decide)

end Bridgelet
